import Mathlib

/-!
Shallow embedding of `dynamic_structures.py` (package `dynamic_structures`)
and of the older `dynamic_structure.py` (package `DynamicStructure`) from the
repository csm10495/DynamicStructure.

The Python code builds ctypes `Structure` types incrementally: each call to
`getStructureType` subclasses the parent structure type and appends exactly one
field.  We embed a ctypes type by the data that determines its byte layout:
its size and alignment, with primitive widths 1/2/4/8 behaving like
`c_uint8`/`c_uint16`/`c_uint32`/`c_uint64` on a 64-bit platform (natural
alignment equal to the width), arrays `elem * count` with the element's
alignment, and structures carrying their computed size and alignment.
Buffers are lists of byte values (`List Nat`); integers decode little-endian.

ctypes layout rules used throughout (with `_pack_ = pack`):
  - a field's effective alignment is `min pack naturalAlignment`;
  - a field is placed at the smallest multiple of its effective alignment
    that is ≥ the current end of the structure;
  - a structure's alignment is the max of its fields' effective alignments
    (at least 1), and its size is the end of its last field rounded up to
    the structure's alignment;
  - a subclass appends its fields after `sizeof(parent)` (the parent's size
    already includes the parent's tail padding).

`_anonymous_` only promotes attribute access on the generated ctypes type; it
never changes offsets or sizes, and no operation modelled here reads it, so
the `anonymous` arguments are threaded for signature fidelity but do not
enter the layout.
-/

/-- Exceptions escaping the library.  The first three are the
`DynamicStructureError` subclasses: `bufferSizeInsufficientEmpty name` is the
`"remaining size == 0"` message of `getStructureType`;
`bufferSizeInsufficient name needed available` is its
`"need %d bytes, have %d bytes"` message.  `typeErrorLenNone` is the Python
built-in `TypeError` raised by `len(None)` when `BaseStructure.fill`
receives `None` (it is not a `DynamicStructureError`). -/
inductive DSError where
  | bitFieldUnsupported
  | bufferSizeInsufficientEmpty (fieldName : String)
  | bufferSizeInsufficient (fieldName : String) (needed : Nat) (available : Nat)
  | typeErrorLenNone
deriving DecidableEq, Repr

/-- Embedding of a ctypes type: the data that determines its byte layout.
`prim w` is the unsigned little-endian integer of `w` bytes (natural
alignment `w`); `arr e n` is `e * n`; `structT s a` is a ctypes Structure
type whose computed size is `s` and alignment is `a`. -/
inductive CTy where
  | prim (width : Nat)
  | arr (elem : CTy) (count : Nat)
  | structT (size : Nat) (align : Nat)
deriving DecidableEq, Repr

/-- `sizeof` for the embedded ctypes types. -/
def CTy.sizeOf : CTy → Nat
  | .prim w => w
  | .arr e n => n * e.sizeOf
  | .structT s _ => s

/-- Natural alignment for the embedded ctypes types. -/
def CTy.alignOf : CTy → Nat
  | .prim w => w
  | .arr e _ => e.alignOf
  | .structT _ a => a

/-- `c_uint8`. -/
def c_uint8 : CTy := .prim 1
/-- `c_uint16`. -/
def c_uint16 : CTy := .prim 2
/-- `c_uint32`. -/
def c_uint32 : CTy := .prim 4
/-- `c_uint64`. -/
def c_uint64 : CTy := .prim 8

/-- Round `n` up to the next multiple of `a` (identity when `a = 0`). -/
def roundUp (n a : Nat) : Nat :=
  if a = 0 then n else ((n + a - 1) / a) * a

/-- One field of a resolved layout: its name, type, and byte offset. -/
structure LField where
  name : String
  ty : CTy
  offset : Nat
deriving DecidableEq, Repr

/-- The layout of a built structure type: the ordered fields with offsets,
the pack (`_pack_`), the structure's total size (`sizeof`) and alignment. -/
structure Layout where
  pack : Nat
  fields : List LField
  size : Nat
  align : Nat
deriving DecidableEq, Repr

/-- The field-less `BuildStructure(BaseStructure)` with `_pack_ = pack`:
size 0, alignment 1. -/
def Layout.empty (pack : Nat) : Layout :=
  { pack := pack, fields := [], size := 0, align := 1 }

/-- Appending one field to a structure type by subclassing with
`_pack_ = pack` (the body of `TmpStructure` in `getStructureType`): the field
goes at the parent's size rounded up to the field's effective alignment, and
the subclass's size is re-rounded to the combined alignment. -/
def Layout.addField (l : Layout) (name : String) (ty : CTy) : Layout :=
  let ea := min l.pack ty.alignOf
  let off := roundUp l.size ea
  let align := max l.align ea
  { pack := l.pack
    fields := l.fields ++ [⟨name, ty, off⟩]
    size := roundUp (off + ty.sizeOf) align
    align := align }

/-- View a built structure type as a ctypes type usable as a field type. -/
def Layout.toCTy (l : Layout) : CTy := .structT l.size l.align

/-- `BaseStructure.fill` inner loop: sets backing byte `i` to `buffer[i]` for
`i` in `[0, k)`. -/
def fillLoop (buffer : List Nat) (backing : List Nat) : Nat → List Nat
  | 0 => backing
  | k + 1 => (fillLoop buffer backing k).set k (buffer.getD k 0)

/-- `BaseStructure.fill` on a freshly constructed (hence zero-initialized)
instance of a structure of size `total`: copy the first
`min (len buffer) total` bytes of `buffer` over zeroed backing storage.
Never an error. -/
def fillBytes (total : Nat) (buffer : List Nat) : List Nat :=
  fillLoop buffer (List.replicate total 0) (min buffer.length total)

/-- A filled structure instance: its layout plus its backing bytes. -/
structure DecodedStruct where
  layout : Layout
  backing : List Nat
deriving DecidableEq, Repr

/-- Little-endian read of `width` bytes at `off` (missing bytes read as 0,
as fill leaves them zero): the fixed-layout primitive decode the spec treats
as provided. -/
def readLE (backing : List Nat) (off : Nat) : Nat → Nat
  | 0 => 0
  | w + 1 => backing.getD off 0 + 256 * readLE backing (off + 1) w

/-- First field with the given name, if any (ctypes attribute lookup finds
the first declared field of that name). -/
def Layout.findField (l : Layout) (name : String) : Option LField :=
  l.fields.find? (fun f => f.name = name)

/-- Attribute read of an integer-valued field: little-endian value of the
field's bytes; 0 when the name is absent. -/
def DecodedStruct.fieldNat (s : DecodedStruct) (name : String) : Nat :=
  match s.layout.findField name with
  | some f => readLE s.backing f.offset f.ty.sizeOf
  | none => 0

/-- Attribute read of an array-of-integers field as a list (`list(struct.X)`);
`[]` when the name is absent or the field is not an array. -/
def DecodedStruct.fieldList (s : DecodedStruct) (name : String) : List Nat :=
  match s.layout.findField name with
  | some ⟨_, .arr e n, off⟩ =>
      (List.range n).map (fun i => readLE s.backing (off + i * e.sizeOf) e.sizeOf)
  | _ => []

/-- One schema entry (a member of the `fields` list).  `fixedF` is a
`(name, ctype)` pair; `resolvedF` is a `(name, function)` pair whose function
receives the parent structure filled so far and the remaining buffer;
`bitfieldF` is a tuple that is not a pair (a `(name, ctype, bitWidth)`
bit-field request). -/
inductive FieldSpec where
  | fixedF (name : String) (ty : CTy)
  | resolvedF (name : String) (resolver : DecodedStruct → List Nat → CTy)
  | bitfieldF (name : String) (ty : CTy) (bitWidth : Nat)

/-- The name of a schema entry (`fieldTuple[0]`). -/
def FieldSpec.name : FieldSpec → String
  | .fixedF n _ => n
  | .resolvedF n _ => n
  | .bitfieldF n _ _ => n

/-- `getStructureType(fieldTuple, buffer, parent, pack, anonymous)`: adds one
field to the parent structure type.  A tuple that is not a pair raises
`BitFieldUnsupportedError` before anything else.  For a resolver field the
parent is instantiated and filled from `buffer`, the remainder
`buffer[sizeof(parent):]` is computed, an empty remainder raises
`BufferSizeInsufficient` naming the field, the resolver is called, and a
remainder shorter than the resolved type raises `BufferSizeInsufficient`
with the needed and available byte counts.  `anonymous` only sets
`_anonymous_`, which does not affect layout. -/
def getStructureType (fieldTuple : FieldSpec) (buffer : List Nat)
    (parent : Layout) (anonymous : List String) : Except DSError Layout :=
  match fieldTuple with
  | .bitfieldF _ _ _ => .error .bitFieldUnsupported
  | .fixedF name ty =>
      let _ := anonymous
      .ok (parent.addField name ty)
  | .resolvedF name resolver =>
      let parentFilledTillNow : DecodedStruct :=
        { layout := parent, backing := fillBytes parent.size buffer }
      let remainderOfBuffer := buffer.drop parent.size
      if remainderOfBuffer.length = 0 then
        .error (.bufferSizeInsufficientEmpty name)
      else
        let calculatedDynamicType := resolver parentFilledTillNow remainderOfBuffer
        if remainderOfBuffer.length < calculatedDynamicType.sizeOf then
          .error (.bufferSizeInsufficient name calculatedDynamicType.sizeOf
            remainderOfBuffer.length)
        else
          .ok (parent.addField name calculatedDynamicType)

/-- The loop of `getDynamicStructureType`: fold `getStructureType` over the
schema starting from the given parent. -/
def buildFrom (fields : List FieldSpec) (buffer : List Nat)
    (anonymous : List String) (parent : Layout) : Except DSError Layout :=
  match fields with
  | [] => .ok parent
  | fieldTuple :: rest => do
      let next ← getStructureType fieldTuple buffer parent anonymous
      buildFrom rest buffer anonymous next

/-- `getDynamicStructureType(fields, buffer, pack, anonymous)`: a `None`
buffer becomes the empty buffer, then each schema entry extends
`BuildStructure` in order. -/
def getDynamicStructureType (fields : List FieldSpec) (buffer : Option (List Nat))
    (pack : Nat) (anonymous : List String) : Except DSError Layout :=
  buildFrom fields (buffer.getD []) anonymous (Layout.empty pack)

/-- `getDynamicStructure(fields, buffer, pack, anonymous)`: build the type,
instantiate it, and `fill` it from the buffer.  The `None`-to-empty rebinding
inside `getDynamicStructureType` is local to that function: `fill` receives
the caller's original `buffer` argument, so when it is `None` the `len(buffer)`
in `fill` raises `TypeError` (after any resolution error, which is raised
first while the type is being built). -/
def getDynamicStructure (fields : List FieldSpec) (buffer : Option (List Nat))
    (pack : Nat) (anonymous : List String) : Except DSError DecodedStruct := do
  let structType ← getDynamicStructureType fields buffer pack anonymous
  match buffer with
  | none => .error .typeErrorLenNone
  | some b => .ok { layout := structType, backing := fillBytes structType.size b }

/-- State while laying out a flat `_fields_` list: fields placed so far, the
current end offset, and the max effective alignment so far. -/
structure FlatState where
  fields : List LField
  endOff : Nat
  align : Nat
deriving DecidableEq, Repr

/-- Place one field of a flat `_fields_` list under `_pack_ = pack`. -/
def flatStep (pack : Nat) (st : FlatState) (f : String × CTy) : FlatState :=
  let ea := min pack f.2.alignOf
  let off := roundUp st.endOff ea
  { fields := st.fields ++ [⟨f.1, f.2, off⟩]
    endOff := off + f.2.sizeOf
    align := max st.align ea }

/-- Layout of a ctypes `Structure` whose whole `_fields_` list is given at
once with `_pack_ = pack` (as `TmpArrayStructure` and `getUpdated` do). -/
def flatLayout (pack : Nat) (fields : List (String × CTy)) : Layout :=
  let st := fields.foldl (flatStep pack) ⟨[], 0, 1⟩
  { pack := pack, fields := st.fields, size := roundUp st.endOff st.align
    align := st.align }

/-- The second argument of `getArrayOfDynamicStructuresType`
(`fieldsOrStructTypePickFunction`): either a list of fields reused for every
element, or a pick function that receives the buffer at this point and
returns a type, or a falsy value (`none`) to stop. -/
inductive ElementSpec where
  | fixedSchema (fields : List FieldSpec)
  | selector (pick : List Nat → Option CTy)

/-- The loop of `getArrayOfDynamicStructuresType`: for up to `n` more
iterations, obtain the element type for the current buffer (a pick function
returning falsy breaks the loop; a fields list is resolved against the
current buffer), append it, and advance the buffer by the element's size. -/
def buildArrayItems (spec : ElementSpec) (pack : Nat) (buffer : List Nat) :
    Nat → Except DSError (List CTy)
  | 0 => .ok []
  | n + 1 =>
      match spec with
      | .selector pick =>
          match pick buffer with
          | none => .ok []
          | some ds => do
              let rest ← buildArrayItems (.selector pick) pack (buffer.drop ds.sizeOf) n
              .ok (ds :: rest)
      | .fixedSchema fields => do
          let ds ← getDynamicStructureType fields (some buffer) pack []
          let rest ← buildArrayItems (.fixedSchema fields) pack
            (buffer.drop ds.size) n
          .ok (ds.toCTy :: rest)

/-- Names the items `_ArrayItem_0`, `_ArrayItem_1`, ... as the source does. -/
def arrayItemName (idx : Nat) : String := "_ArrayItem_" ++ toString idx

/-- `getArrayOfDynamicStructuresType(buffer, fieldsOrStructTypePickFunction,
maxArrayLength, pack)`: run the loop, then lay the produced element types out
as the flat `_fields_` of `TmpArrayStructure`. -/
def getArrayOfDynamicStructuresType (buffer : List Nat) (spec : ElementSpec)
    (maxArrayLength : Nat) (pack : Nat) : Except DSError Layout := do
  let items ← buildArrayItems spec pack buffer maxArrayLength
  .ok (flatLayout pack (items.enum.map (fun p => (arrayItemName p.1, p.2))))

/-- `getArrayOfDynamicStructures`: build the array type and `fill` an
instance of it from the buffer. -/
def getArrayOfDynamicStructures (buffer : List Nat) (spec : ElementSpec)
    (maxArrayLength : Nat) (pack : Nat) : Except DSError DecodedStruct := do
  let t ← getArrayOfDynamicStructuresType buffer spec maxArrayLength pack
  .ok { layout := t, backing := fillBytes t.size buffer }

/-- `TmpArrayStructure.__len__`: the number of items in the curated fields
list, i.e. the produced count. -/
def arrayLength (a : DecodedStruct) : Nat := a.layout.fields.length

/-- `TmpArrayStructure.getArrayIndex(idx)`: raise `IndexError` (`none`) when
`idx >= len(self)` or `idx < 0`, else return item `idx`. -/
def getArrayIndex (a : DecodedStruct) (idx : Int) : Option LField :=
  if idx ≥ (arrayLength a : Int) ∨ idx < 0 then none
  else a.layout.fields.get? idx.toNat

/-! The older `DynamicStructure/dynamic_structure.py` file: `getAllFields`
walks the MRO of the incrementally built structure collecting each class's
single-entry `_fields_` and reverses, recovering declaration order;
`getUpdated` replaces the type of the first field with the given name and
rebuilds a flat structure with the instance's `_pack_`. -/

/-- `BuildStructure.getAllFields`: the `(name, type)` pairs of the built
structure in declaration order (MRO traversal reversed). -/
def getAllFields (l : Layout) : List (String × CTy) :=
  l.fields.map (fun f => (f.name, f.ty))

/-- The scan inside `getUpdated`: replace the type at the first entry whose
name matches, or report `not found` (`none`). -/
def replaceFirstField (name : String) (newTy : CTy) :
    List (String × CTy) → Option (List (String × CTy))
  | [] => none
  | (n, t) :: rest =>
      if n = name then some ((n, newTy) :: rest)
      else (replaceFirstField name newTy rest).map ((n, t) :: ·)

/-- `BuildStructure.getUpdated(fieldName, fieldType)`: copy the field list,
replace the first matching entry's type, and build a fresh flat `Structure`
with `_pack_ = self._pack_`; return `False` (`none`) when no field matches. -/
def getUpdated (l : Layout) (fieldName : String) (fieldType : CTy) : Option Layout :=
  match replaceFirstField fieldName fieldType (getAllFields l) with
  | none => none
  | some fieldsCopy => some (flatLayout l.pack fieldsCopy)

/-! Concrete schemas and buffers used by the worked examples. -/

/-- Schema of the worked decode: a count byte, a resolver-sized byte array,
and a trailing byte. -/
def c1fields : List FieldSpec :=
  [ .fixedF "NumElements" c_uint8,
    .resolvedF "Elements" (fun s _ => .arr c_uint8 (s.fieldNat "NumElements")),
    .fixedF "Post" c_uint8 ]

/-- Buffer of the worked decode. -/
def c1buf : List Nat := [10, 0, 1, 2, 3, 4, 5, 6, 7, 8, 9, 99]

/-- Schema of the insufficient-buffer example: a count byte then a
resolver-sized byte array. -/
def c2fields : List FieldSpec :=
  [ .fixedF "NumElements" c_uint8,
    .resolvedF "Elements" (fun s _ => .arr c_uint8 (s.fieldNat "NumElements")) ]

/-- Buffer of the insufficient-buffer example: 9 bytes remain after the
count, 10 are needed. -/
def c2buf : List Nat := [10, 0, 1, 2, 3, 4, 5, 6, 7, 8]

/-- C1: for the schema `[NumElements: u8, Elements: resolver returning an
array of u8 of length NumElements, Post: u8]` with pack alignment 1 and
buffer `[10,0,1,2,3,4,5,6,7,8,9,99]`, decoding succeeds and yields
`NumElements == 10`, `Elements == [0,1,2,3,4,5,6,7,8,9]`, `Post == 99`, and a
total structure size of 12 bytes. -/
theorem c1_worked_decode :
    (getDynamicStructure c1fields (some c1buf) 1 []).map
      (fun s => (s.fieldNat "NumElements", s.fieldList "Elements",
        s.fieldNat "Post", s.layout.size)) =
    .ok (10, [0, 1, 2, 3, 4, 5, 6, 7, 8, 9], 99, 12) := by rfl

/-- C7: for the schema `[A: u8, B: u32]` with pack alignment 4 over buffer
`[10,0,1,2,3,4,5,6,7,8,9]`, the layout places `B` at offset 4 (3 padding
bytes after `A`), the total size is 8, and `B` decodes little-endian to
`0x06050403`. -/
theorem c7_pack_alignment :
    (getDynamicStructure [.fixedF "A" c_uint8, .fixedF "B" c_uint32]
      (some [10, 0, 1, 2, 3, 4, 5, 6, 7, 8, 9]) 4 []).map
      (fun s => ((s.layout.findField "A").map LField.offset,
        (s.layout.findField "B").map LField.offset,
        s.layout.size, s.fieldNat "B")) =
    .ok (some 0, some 4, 8, 0x06050403) := by rfl

/-- C2: when resolving a dynamic field, an empty remainder after the
already-resolved prefix raises `BufferSizeInsufficient` naming the field, and
a remainder shorter than the resolved type's size raises
`BufferSizeInsufficient` naming the field and reporting the needed and
available byte counts; in particular the schema
`[NumElements: u8, Elements: resolver -> u8 array of length NumElements]`
over `[10,0,1,2,3,4,5,6,7,8]` raises `BufferSizeInsufficient` naming
`Elements` (needing 10 bytes with 9 available). -/
theorem c2_buffer_size_insufficient :
    (∀ (parent : Layout) (buffer : List Nat) (name : String)
       (resolver : DecodedStruct → List Nat → CTy) (anonymous : List String),
      ((buffer.drop parent.size).length = 0 →
        getStructureType (.resolvedF name resolver) buffer parent anonymous =
          .error (.bufferSizeInsufficientEmpty name)) ∧
      ((buffer.drop parent.size).length ≠ 0 →
        (buffer.drop parent.size).length <
          (resolver ⟨parent, fillBytes parent.size buffer⟩
            (buffer.drop parent.size)).sizeOf →
        getStructureType (.resolvedF name resolver) buffer parent anonymous =
          .error (.bufferSizeInsufficient name
            (resolver ⟨parent, fillBytes parent.size buffer⟩
              (buffer.drop parent.size)).sizeOf
            (buffer.drop parent.size).length))) ∧
    getDynamicStructure c2fields (some c2buf) 1 [] =
      .error (.bufferSizeInsufficient "Elements" 10 9) := by
  refine ⟨fun parent buffer name resolver anonymous => ⟨?_, ?_⟩, by rfl⟩
  · intro h
    simp [getStructureType, h]
  · intro h hlt
    simp only [getStructureType]
    rw [if_neg h, if_pos hlt]

/-- Witness for C2: both error branches fire at concrete inputs, and the
concrete decode fails naming `Elements`. -/
theorem c2_buffer_size_insufficient_witness :
    getStructureType (.resolvedF "X" (fun _ _ => c_uint8)) [] (Layout.empty 1) [] =
      .error (.bufferSizeInsufficientEmpty "X") ∧
    getStructureType (.resolvedF "Y" (fun _ _ => c_uint32)) [7] (Layout.empty 1) [] =
      .error (.bufferSizeInsufficient "Y" 4 1) :=
  ⟨(c2_buffer_size_insufficient.1 (Layout.empty 1) [] "X" (fun _ _ => c_uint8) []).1
      (by decide),
   (c2_buffer_size_insufficient.1 (Layout.empty 1) [7] "Y" (fun _ _ => c_uint32) []).2
      (by decide) (by decide)⟩

/-- Laying out a flat fields list appends exactly one placed field per entry. -/
theorem flatState_fields_length (pack : Nat) (fs : List (String × CTy)) :
    ∀ st : FlatState,
      (fs.foldl (flatStep pack) st).fields.length = st.fields.length + fs.length := by
  induction fs with
  | nil => intro st; simp
  | cons f rest ih =>
      intro st
      rw [List.foldl_cons, ih]
      simp [flatStep]
      omega

/-- A flat layout has one placed field per given field. -/
theorem flatLayout_fields_length (pack : Nat) (fs : List (String × CTy)) :
    (flatLayout pack fs).fields.length = fs.length := by
  simp [flatLayout, flatState_fields_length]

/-- C8: `getArrayIndex(i)` fails (raises `IndexError`) exactly when `i < 0`
or `i >= producedCount`, succeeds for every `0 <= i < producedCount`, and
`len()` returns the produced count (the number of items the array-building
loop produced). -/
theorem c8_array_index_bounds :
    (∀ (a : DecodedStruct) (idx : Int),
      (getArrayIndex a idx = none ↔ idx < 0 ∨ (arrayLength a : Int) ≤ idx) ∧
      (0 ≤ idx → idx < (arrayLength a : Int) →
        ∃ f, getArrayIndex a idx = some f)) ∧
    (∀ (buffer : List Nat) (spec : ElementSpec) (maxLen pack : Nat)
       (a : DecodedStruct) (items : List CTy),
      buildArrayItems spec pack buffer maxLen = .ok items →
      getArrayOfDynamicStructures buffer spec maxLen pack = .ok a →
      arrayLength a = items.length) := by
  constructor
  · intro a idx
    have hcond : (idx ≥ (arrayLength a : Int) ∨ idx < 0) ↔
        (idx < 0 ∨ (arrayLength a : Int) ≤ idx) := by omega
    constructor
    · constructor
      · intro h
        by_cases hc : idx ≥ (arrayLength a : Int) ∨ idx < 0
        · exact hcond.mp hc
        · exfalso
          rw [getArrayIndex, if_neg hc] at h
          rw [List.get?_eq_none] at h
          unfold arrayLength at hc
          omega
      · intro h
        rw [getArrayIndex, if_pos (hcond.mpr h)]
    · intro h0 hlen
      have hc : ¬(idx ≥ (arrayLength a : Int) ∨ idx < 0) := by omega
      rw [getArrayIndex, if_neg hc]
      have hlt : idx.toNat < a.layout.fields.length := by
        unfold arrayLength at hlen
        omega
      exact ⟨a.layout.fields.get ⟨idx.toNat, hlt⟩, List.get?_eq_get hlt⟩
  · intro buffer spec maxLen pack a items hitems ha
    simp only [getArrayOfDynamicStructures, getArrayOfDynamicStructuresType,
      bind, Except.bind, hitems] at ha
    cases ha
    simp [arrayLength, flatLayout_fields_length]

/-- Witness for C8: indexing the 3-element fixed array from the repository's
test at indexes `-2`, `0`, and `3`. -/
theorem c8_array_index_bounds_witness :
    ∃ a, getArrayOfDynamicStructures (List.range 6)
        (.fixedSchema [.fixedF "A" c_uint8, .fixedF "B" c_uint8]) 3 1 = .ok a ∧
      arrayLength a = 3 ∧
      getArrayIndex a (-2) = none ∧ getArrayIndex a 3 = none ∧
      (∃ f, getArrayIndex a 0 = some f) := by
  refine ⟨_, rfl, by rfl, ?_, ?_, ?_⟩
  · exact ((c8_array_index_bounds.1 _ (-2)).1).mpr (by decide)
  · exact ((c8_array_index_bounds.1 _ 3).1).mpr (by decide)
  · exact (c8_array_index_bounds.1 _ 0).2 (by decide) (by decide)

/-- The fill loop never changes the backing storage's length. -/
theorem fillLoop_length (buffer backing : List Nat) :
    ∀ k, (fillLoop buffer backing k).length = backing.length := by
  intro k
  induction k with
  | zero => rfl
  | succ k ih => simp [fillLoop, ih]

/-- After `k` iterations of the fill loop, bytes below `k` come from the
buffer and the rest are untouched. -/
theorem fillLoop_getD (buffer backing : List Nat) :
    ∀ k i, (fillLoop buffer backing k).getD i 0 =
      if i < k ∧ i < backing.length then buffer.getD i 0 else backing.getD i 0 := by
  intro k
  induction k with
  | zero =>
      intro i
      rw [if_neg (by omega)]
      rfl
  | succ k ih =>
      intro i
      simp only [fillLoop, List.getD]
      rcases Nat.lt_trichotomy i k with hik | hik | hik
      · rw [List.get?_set_ne _ _ (by omega)]
        have := ih i
        simp only [List.getD] at this
        rw [this]
        by_cases hb : i < backing.length
        · rw [if_pos ⟨hik, hb⟩, if_pos ⟨by omega, hb⟩]
        · rw [if_neg (by omega), if_neg (by omega)]
      · subst hik
        by_cases hb : i < backing.length
        · rw [List.get?_set_eq_of_lt _ (by rw [fillLoop_length]; omega)]
          rw [if_pos ⟨by omega, hb⟩]
          rfl
        · rw [if_neg (by omega)]
          have h1 : ((fillLoop buffer backing i).set i ((buffer.get? i).getD 0)).get? i
              = none :=
            List.get?_eq_none.mpr (by rw [List.length_set, fillLoop_length]; omega)
          have h2 : backing.get? i = none := List.get?_eq_none.mpr (by omega)
          rw [h1, h2]
      · rw [List.get?_set_ne _ _ (by omega)]
        have := ih i
        simp only [List.getD] at this
        rw [this, if_neg (by omega), if_neg (by omega)]

/-- Filled backing storage has the structure's size. -/
theorem fillBytes_length (totalSize : Nat) (buffer : List Nat) :
    (fillBytes totalSize buffer).length = totalSize := by
  rw [fillBytes, fillLoop_length, List.length_replicate]

/-- Byte-level characterization of `fill`: within the structure's size the
first `len buffer` bytes come from the buffer and the rest stay zero. -/
theorem fillBytes_getD (totalSize : Nat) (buffer : List Nat) (i : Nat) :
    (fillBytes totalSize buffer).getD i 0 =
      if i < totalSize ∧ i < buffer.length then buffer.getD i 0 else 0 := by
  rw [fillBytes, fillLoop_getD]
  rcases Nat.lt_or_ge i (min buffer.length totalSize) with h | h
  · rw [if_pos ⟨by omega, by rw [List.length_replicate]; omega⟩,
      if_pos ⟨by omega, by omega⟩]
  · rw [if_neg (by rw [List.length_replicate]; omega), if_neg (by omega)]
    by_cases hr : i < totalSize
    · rw [List.getD_eq_getElem _ _ (by rw [List.length_replicate]; omega)]
      simp
    · rw [List.getD_eq_default _ _ (by rw [List.length_replicate]; omega)]

/-- C5: `fill` copies exactly `min (len buffer) totalSize` bytes from the
front of the buffer into zero-initialized backing storage of length
`totalSize`; it is a total function (never an error), and every backing byte
at or beyond `len buffer` is zero. -/
theorem c5_fill_truncates :
    ∀ (totalSize : Nat) (buffer : List Nat),
      (fillBytes totalSize buffer).length = totalSize ∧
      (∀ i, (fillBytes totalSize buffer).getD i 0 =
        if i < totalSize ∧ i < buffer.length then buffer.getD i 0 else 0) ∧
      (∀ i, buffer.length ≤ i → (fillBytes totalSize buffer).getD i 0 = 0) := by
  intro totalSize buffer
  refine ⟨fillBytes_length totalSize buffer, fillBytes_getD totalSize buffer, ?_⟩
  intro i h
  rw [fillBytes_getD, if_neg (by omega)]

/-- Whether a schema entry is a plain `(name, ctype)` pair. -/
def FieldSpec.isFixed : FieldSpec → Bool
  | .fixedF _ _ => true
  | _ => false

/-- The effect of one fixed schema entry on the built structure type
(non-fixed entries are ignored; used only under an all-fixed hypothesis). -/
def addFixed (l : Layout) (f : FieldSpec) : Layout :=
  match f with
  | .fixedF n t => l.addField n t
  | _ => l

/-- A run of fixed fields never inspects the buffer and never fails: the
build of `pre ++ rest` reaches `rest` with the fixed fields appended. -/
theorem buildFrom_append_fixed (pre : List FieldSpec) :
    ∀ (rest : List FieldSpec) (buffer : List Nat) (anonymous : List String)
      (parent : Layout), (∀ f ∈ pre, f.isFixed = true) →
      buildFrom (pre ++ rest) buffer anonymous parent =
        buildFrom rest buffer anonymous (pre.foldl addFixed parent) := by
  induction pre with
  | nil => intro rest buffer anonymous parent _; rfl
  | cons f pre ih =>
      intro rest buffer anonymous parent hfix
      match f with
      | .fixedF n t =>
          rw [List.cons_append]
          show (do
            let next ← getStructureType (.fixedF n t) buffer parent anonymous
            buildFrom (pre ++ rest) buffer anonymous next) = _
          rw [show getStructureType (.fixedF n t) buffer parent anonymous =
            .ok (parent.addField n t) from rfl]
          show buildFrom (pre ++ rest) buffer anonymous (parent.addField n t) = _
          rw [ih rest buffer anonymous (parent.addField n t)
            (fun g hg => hfix g (List.mem_cons_of_mem _ hg))]
          rfl
      | .resolvedF n r => exact absurd (hfix _ (List.mem_cons_self _ _)) (by simp [FieldSpec.isFixed])
      | .bitfieldF n t w => exact absurd (hfix _ (List.mem_cons_self _ _)) (by simp [FieldSpec.isFixed])

/-- An all-fixed schema builds successfully, to a layout independent of the
buffer. -/
theorem buildFrom_fixed_ok (fields : List FieldSpec) (buffer : List Nat)
    (anonymous : List String) (parent : Layout)
    (hfix : ∀ f ∈ fields, f.isFixed = true) :
    buildFrom fields buffer anonymous parent = .ok (fields.foldl addFixed parent) := by
  have h := buildFrom_append_fixed fields [] buffer anonymous parent hfix
  rw [List.append_nil] at h
  exact h

/-- The pick function signals `Stop` (returns falsy) exactly at iteration
`k`: it returns a type on each of the first `k` successive buffer windows and
falsy on the window reached after them. -/
def selStopsAfter (pick : List Nat → Option CTy) (buffer : List Nat) : Nat → Prop
  | 0 => pick buffer = none
  | k + 1 => ∃ ty, pick buffer = some ty ∧
      selStopsAfter pick (buffer.drop ty.sizeOf) k

/-- The pick-function path of the array loop performs no buffer-size check
and can never fail. -/
theorem buildArrayItems_selector_ok (pick : List Nat → Option CTy) (pack : Nat) :
    ∀ (n : Nat) (buffer : List Nat), ∃ items,
      buildArrayItems (.selector pick) pack buffer n = .ok items := by
  intro n
  induction n with
  | zero => intro buffer; exact ⟨[], rfl⟩
  | succ n ih =>
      intro buffer
      cases h : pick buffer with
      | none =>
          refine ⟨[], ?_⟩
          show (match pick buffer with
            | none => Except.ok []
            | some ds => do
                let rest ← buildArrayItems (.selector pick) pack
                  (buffer.drop ds.sizeOf) n
                Except.ok (ds :: rest)) = Except.ok []
          rw [h]
      | some ds =>
          obtain ⟨items, hitems⟩ := ih (buffer.drop ds.sizeOf)
          refine ⟨ds :: items, ?_⟩
          show (match pick buffer with
            | none => Except.ok []
            | some ds => do
                let rest ← buildArrayItems (.selector pick) pack
                  (buffer.drop ds.sizeOf) n
                Except.ok (ds :: rest)) = Except.ok (ds :: items)
          rw [h]
          show (do
            let rest ← buildArrayItems (.selector pick) pack
              (buffer.drop ds.sizeOf) n
            Except.ok (ds :: rest)) = Except.ok (ds :: items)
          rw [hitems]
          rfl

/-- When the pick function stops after `k < n` windows, the loop produces
exactly `k` items. -/
theorem buildArrayItems_selector_stops (pick : List Nat → Option CTy) (pack : Nat) :
    ∀ (n k : Nat) (buffer : List Nat), selStopsAfter pick buffer k →
      k < n → ∃ items, buildArrayItems (.selector pick) pack buffer n = .ok items ∧
        items.length = k := by
  intro n
  induction n with
  | zero => intro k buffer _ hk; exact absurd hk (Nat.not_lt_zero k)
  | succ n ih =>
      intro k buffer hstop hk
      cases k with
      | zero =>
          refine ⟨[], ?_, rfl⟩
          show (match pick buffer with
            | none => Except.ok []
            | some ds => do
                let rest ← buildArrayItems (.selector pick) pack
                  (buffer.drop ds.sizeOf) n
                Except.ok (ds :: rest)) = Except.ok []
          rw [show pick buffer = none from hstop]
      | succ k =>
          obtain ⟨ty, hty, htail⟩ := hstop
          obtain ⟨items, hitems, hlen⟩ :=
            ih k (buffer.drop ty.sizeOf) htail (by omega)
          refine ⟨ty :: items, ?_, by simp [hlen]⟩
          show (match pick buffer with
            | none => Except.ok []
            | some ds => do
                let rest ← buildArrayItems (.selector pick) pack
                  (buffer.drop ds.sizeOf) n
                Except.ok (ds :: rest)) = Except.ok (ty :: items)
          rw [hty]
          show (do
            let rest ← buildArrayItems (.selector pick) pack
              (buffer.drop ty.sizeOf) n
            Except.ok (ty :: rest)) = Except.ok (ty :: items)
          rw [hitems]
          rfl

/-- The array instance obtained from a successful item list. -/
def arrayFromItems (pack : Nat) (buffer : List Nat) (items : List CTy) :
    DecodedStruct :=
  { layout := flatLayout pack (items.enum.map (fun p => (arrayItemName p.1, p.2)))
    backing := fillBytes
      (flatLayout pack (items.enum.map (fun p => (arrayItemName p.1, p.2)))).size
      buffer }

/-- A successful item list determines the decoded array instance. -/
theorem getArray_of_items (buffer : List Nat) (spec : ElementSpec)
    (maxCount pack : Nat) (items : List CTy)
    (hitems : buildArrayItems spec pack buffer maxCount = .ok items) :
    getArrayOfDynamicStructures buffer spec maxCount pack =
      .ok (arrayFromItems pack buffer items) := by
  rw [getArrayOfDynamicStructures, getArrayOfDynamicStructuresType, hitems]
  rfl

/-- The produced count of a decoded array is the number of loop items. -/
theorem arrayLength_arrayFromItems (pack : Nat) (buffer : List Nat)
    (items : List CTy) : arrayLength (arrayFromItems pack buffer items) =
      items.length := by
  simp [arrayLength, arrayFromItems, flatLayout_fields_length]

/-- Counterexample to C3's starvation half as stated: a pick function that
always continues with `c_uint32` over a 2-byte buffer with `maxCount = 1`
needs 4 bytes but has 2, yet `getArrayOfDynamicStructuresType` returns the
one-element array type with no `BufferSizeInsufficient`. -/
theorem c3_starvation_counterexample :
    ([0, 0] : List Nat).length < c_uint32.sizeOf ∧
    getArrayOfDynamicStructuresType [0, 0] (.selector (fun _ => some c_uint32)) 1 1 =
      .ok { pack := 1, fields := [⟨"_ArrayItem_0", .prim 4, 0⟩],
            size := 4, align := 1 } := ⟨by decide, by rfl⟩

/-- C3 (amended): a pick function (`Selector`) that returns `Stop` after
`k < maxCount` elements makes the array decode succeed with
`producedCount == k` and no error; and in general the pick-function path
never raises `BufferSizeInsufficient` — when the pick function keeps
returning a type whose size exceeds the remaining bytes, the element is
still appended and the decode still succeeds (its bytes beyond the buffer
are zero-filled by `fill`). -/
theorem c3_selector_stop_vs_starvation :
    (∀ (pick : List Nat → Option CTy) (buffer : List Nat) (pack k maxCount : Nat),
      selStopsAfter pick buffer k → k < maxCount →
      ∃ a, getArrayOfDynamicStructures buffer (.selector pick) maxCount pack = .ok a ∧
        arrayLength a = k) ∧
    (∀ (pick : List Nat → Option CTy) (buffer : List Nat) (pack maxCount : Nat),
      ∃ a, getArrayOfDynamicStructures buffer (.selector pick) maxCount pack = .ok a) := by
  constructor
  · intro pick buffer pack k maxCount hstop hk
    obtain ⟨items, hitems, hlen⟩ :=
      buildArrayItems_selector_stops pick pack maxCount k buffer hstop hk
    exact ⟨arrayFromItems pack buffer items,
      getArray_of_items buffer _ maxCount pack items hitems,
      by rw [arrayLength_arrayFromItems, hlen]⟩
  · intro pick buffer pack maxCount
    obtain ⟨items, hitems⟩ := buildArrayItems_selector_ok pick pack maxCount buffer
    exact ⟨arrayFromItems pack buffer items,
      getArray_of_items buffer _ maxCount pack items hitems⟩

/-- Witness for C3 (amended): a pick function that stops on a zero lead byte
produces 2 of a possible 5 elements over `[1,1,0,5]`, and the
always-continue pick function from the starvation example still succeeds. -/
theorem c3_selector_stop_vs_starvation_witness :
    (∃ a, getArrayOfDynamicStructures [1, 1, 0, 5]
        (.selector (fun b => if b.getD 0 0 = 0 then none else some c_uint8)) 5 1 =
        .ok a ∧ arrayLength a = 2) ∧
    (∃ a, getArrayOfDynamicStructures [0, 0]
        (.selector (fun _ => some c_uint32)) 1 1 = .ok a) :=
  ⟨c3_selector_stop_vs_starvation.1
      (fun b => if b.getD 0 0 = 0 then none else some c_uint8) [1, 1, 0, 5] 1 2 5
      ⟨c_uint8, rfl, c_uint8, rfl, rfl⟩ (by decide),
   c3_selector_stop_vs_starvation.2 (fun _ => some c_uint32) [0, 0] 1 1⟩

/-- An all-fixed element schema resolves identically on every window and
never fails: the loop produces one identical element type per iteration. -/
theorem buildArrayItems_fixedSchema (fields : List FieldSpec) (pack : Nat)
    (hfix : ∀ f ∈ fields, f.isFixed = true) :
    ∀ (n : Nat) (buffer : List Nat),
      buildArrayItems (.fixedSchema fields) pack buffer n =
        .ok (List.replicate n (fields.foldl addFixed (Layout.empty pack)).toCTy) := by
  intro n
  induction n with
  | zero => intro buffer; rfl
  | succ n ih =>
      intro buffer
      show (do
        let ds ← getDynamicStructureType fields (some buffer) pack []
        let rest ← buildArrayItems (.fixedSchema fields) pack
          (buffer.drop ds.size) n
        Except.ok (ds.toCTy :: rest)) = _
      rw [show getDynamicStructureType fields (some buffer) pack [] =
        .ok (fields.foldl addFixed (Layout.empty pack)) from
        buildFrom_fixed_ok fields buffer [] (Layout.empty pack) hfix]
      show (do
        let rest ← buildArrayItems (.fixedSchema fields) pack
          (buffer.drop (fields.foldl addFixed (Layout.empty pack)).size) n
        Except.ok ((fields.foldl addFixed (Layout.empty pack)).toCTy :: rest)) = _
      rw [ih]
      rfl

/-- C9: decoding an array whose element spec is a fields list of only fixed
fields never raises `BufferSizeInsufficient`, even when the buffer is
shorter than `maxCount` elements require: exactly `maxCount` elements are
produced, and every backing byte at or past the end of the buffer — in
particular every byte of an element placed entirely past the end — is
zero. -/
theorem c9_fixed_schema_array_total :
    ∀ (fields : List FieldSpec) (buffer : List Nat) (maxCount pack : Nat),
      (∀ f ∈ fields, f.isFixed = true) →
      ∃ a, getArrayOfDynamicStructures buffer (.fixedSchema fields) maxCount pack =
          .ok a ∧
        arrayLength a = maxCount ∧
        a.backing.length = a.layout.size ∧
        (∀ j, buffer.length ≤ j → a.backing.getD j 0 = 0) ∧
        (∀ f ∈ a.layout.fields, buffer.length ≤ f.offset →
          ∀ j, j < f.ty.sizeOf → a.backing.getD (f.offset + j) 0 = 0) := by
  intro fields buffer maxCount pack hfix
  have hitems := buildArrayItems_fixedSchema fields pack hfix maxCount buffer
  refine ⟨arrayFromItems pack buffer _,
    getArray_of_items buffer _ maxCount pack _ hitems, ?_, ?_, ?_, ?_⟩
  · rw [arrayLength_arrayFromItems, List.length_replicate]
  · exact fillBytes_length _ buffer
  · intro j hj
    show (fillBytes _ buffer).getD j 0 = 0
    rw [fillBytes_getD, if_neg (by omega)]
  · intro f _ hoff j _
    show (fillBytes _ buffer).getD (f.offset + j) 0 = 0
    rw [fillBytes_getD, if_neg (by omega)]

/-- Witness for C9: a 2-byte-per-element fixed schema over a 2-byte buffer
still yields all 3 requested elements. -/
theorem c9_fixed_schema_array_total_witness :
    ∃ a, getArrayOfDynamicStructures [1, 2]
        (.fixedSchema [.fixedF "A" c_uint8, .fixedF "B" c_uint8]) 3 1 = .ok a ∧
      arrayLength a = 3 ∧
      a.backing.length = a.layout.size ∧
      (∀ j, ([1, 2] : List Nat).length ≤ j → a.backing.getD j 0 = 0) ∧
      (∀ f ∈ a.layout.fields, ([1, 2] : List Nat).length ≤ f.offset →
        ∀ j, j < f.ty.sizeOf → a.backing.getD (f.offset + j) 0 = 0) :=
  c9_fixed_schema_array_total [.fixedF "A" c_uint8, .fixedF "B" c_uint8]
    [1, 2] 3 1 (by decide)

/-- When no entry bears the name, the `getUpdated` scan reports not-found. -/
theorem replaceFirstField_none (name : String) (newTy : CTy) :
    ∀ fs : List (String × CTy), (∀ p ∈ fs, p.1 ≠ name) →
      replaceFirstField name newTy fs = none := by
  intro fs
  induction fs with
  | nil => intro _; rfl
  | cons p rest ih =>
      intro h
      obtain ⟨n, t⟩ := p
      rw [replaceFirstField,
        if_neg (h (n, t) (List.mem_cons_self _ _)),
        ih (fun q hq => h q (List.mem_cons_of_mem _ hq))]
      rfl

/-- The `getUpdated` scan replaces the type at exactly the first index whose
name matches, leaving every other entry unchanged. -/
theorem replaceFirstField_found (name : String) (newTy : CTy) :
    ∀ (fs : List (String × CTy)) (i : Nat),
      fs.findIdx? (fun p => p.1 == name) = some i →
      replaceFirstField name newTy fs = some (fs.set i (name, newTy)) := by
  intro fs
  induction fs with
  | nil => intro i h; exact absurd h (by simp)
  | cons p rest ih =>
      intro i h
      obtain ⟨n, t⟩ := p
      rw [List.findIdx?_cons] at h
      by_cases hn : n = name
      · rw [if_pos (by simp [hn])] at h
        cases h
        rw [replaceFirstField, if_pos hn, List.set_cons_zero, hn]
      · rw [if_neg (by simp [hn])] at h
        rw [List.findIdx?_succ] at h
        obtain ⟨j, hj, rfl⟩ := Option.map_eq_some'.mp h
        rw [replaceFirstField, if_neg hn, ih j hj]
        rfl

/-- C6: `getUpdated(name, newType)` returns a fresh structure type in which
exactly the first-declared field named `name` has its type replaced, every
offset being recomputed as a flat `_fields_` layout under the instance's own
`_pack_`; the original layout value is untouched (the embedding is purely
functional and the source builds a new class from a copied field list), and
an absent name yields the falsy result `none` rather than an exception. -/
theorem c6_getUpdated_replaces_first :
    ∀ (l : Layout) (fieldName : String) (fieldType : CTy),
      ((∀ f ∈ l.fields, f.name ≠ fieldName) →
        getUpdated l fieldName fieldType = none) ∧
      (∀ i, (getAllFields l).findIdx? (fun p => p.1 == fieldName) = some i →
        getUpdated l fieldName fieldType =
          some (flatLayout l.pack ((getAllFields l).set i (fieldName, fieldType)))) := by
  intro l fieldName fieldType
  constructor
  · intro h
    rw [getUpdated, replaceFirstField_none fieldName fieldType (getAllFields l)]
    intro p hp
    rw [getAllFields] at hp
    obtain ⟨f, hf, rfl⟩ := List.mem_map.mp hp
    exact h f hf
  · intro i hi
    rw [getUpdated, replaceFirstField_found fieldName fieldType (getAllFields l) i hi]

/-- Witness for C6: on a two-field layout, updating `B` replaces exactly its
type with offsets recomputed, and updating an absent `Z` returns `none`. -/
theorem c6_getUpdated_replaces_first_witness :
    getUpdated ⟨1, [⟨"A", c_uint8, 0⟩, ⟨"B", c_uint32, 1⟩], 5, 1⟩ "Z" c_uint16 =
      none ∧
    getUpdated ⟨1, [⟨"A", c_uint8, 0⟩, ⟨"B", c_uint32, 1⟩], 5, 1⟩ "B" c_uint16 =
      some (flatLayout 1 [("A", c_uint8), ("B", c_uint16)]) :=
  ⟨(c6_getUpdated_replaces_first ⟨1, [⟨"A", c_uint8, 0⟩, ⟨"B", c_uint32, 1⟩], 5, 1⟩
      "Z" c_uint16).1 (by decide),
   (c6_getUpdated_replaces_first ⟨1, [⟨"A", c_uint8, 0⟩, ⟨"B", c_uint32, 1⟩], 5, 1⟩
      "B" c_uint16).2 1 (by decide)⟩

/-- Witness for C5: filling a 4-byte structure from a 2-byte buffer keeps
length 4, copies the prefix, and zeroes the tail. -/
theorem c5_fill_truncates_witness :
    (fillBytes 4 [7, 8]).length = 4 ∧
    (fillBytes 4 [7, 8]).getD 0 0 =
      (if 0 < 4 ∧ 0 < ([7, 8] : List Nat).length then ([7, 8] : List Nat).getD 0 0
       else 0) ∧
    (fillBytes 4 [7, 8]).getD 3 0 = 0 :=
  ⟨(c5_fill_truncates 4 [7, 8]).1, (c5_fill_truncates 4 [7, 8]).2.1 0,
   (c5_fill_truncates 4 [7, 8]).2.2 3 (by decide)⟩
